/-
  Verification of the LAN text/web chat client core (storage, quota handling,
  transport reconnection, and message sending) against its specification.

  The JavaScript source is shallowly embedded: localStorage becomes an explicit
  association list from keys to stored values, Date.now() and the browser's
  storage capacity become explicit environment parameters, and functions that
  can throw become Except-valued functions (the error value carries the store
  as mutated before the throw, matching the in-place mutation of localStorage).
-/
import Mathlib

/-! ## Data model: wire/storage message envelopes (storage.js, sender.js) -/

/-- A message envelope as handled by the client. Optional fields model the
JSON fields that may be absent on a given message object. -/
structure Message where
  type : String
  text : Option String := none
  name : Option String := none
  mime : Option String := none
  size : Option Nat := none
  data : Option String := none
  ts : Option String := none
deriving Repr, DecidableEq

/-- storage.js prepareMessageForStorage: text and status messages are stored
whole, file messages are stored with the data field removed, every other
message type is not stored. -/
def prepareMessageForStorage (message : Message) : Option Message :=
  if message.type = "text" ∨ message.type = "status" then
    some message
  else if message.type = "file" then
    some { message with data := none }
  else
    none

/-! The JavaScript string builtins used by the source (String.prototype's
startsWith, substring, trim, and the UTF-8 byte length helper) are modelled
structurally over the character list of a Lean String, so that every
definition evaluates inside proofs. -/

/-- JS s.startsWith(pre). -/
def startsWithM (s pre : String) : Bool :=
  pre.data.isPrefixOf s.data

/-- JS s.substring(n): the characters of s from index n on. -/
def dropM (s : String) (n : Nat) : String :=
  String.mk (s.data.drop n)

/-- JS s.trim(): whitespace stripped from both ends. -/
def jsTrim (s : String) : String :=
  String.mk
    (((s.data.dropWhile Char.isWhitespace).reverse.dropWhile Char.isWhitespace).reverse)

/-- Decidable equality of fallible results (the standard library derives no
such instance for Except). -/
instance {ε α : Type} [DecidableEq ε] [DecidableEq α] : DecidableEq (Except ε α) :=
  fun a b =>
    match a, b with
    | Except.ok x, Except.ok y =>
      match decEq x y with
      | isTrue h => isTrue (by rw [h])
      | isFalse h => isFalse (fun hh => by injection hh; contradiction)
    | Except.error x, Except.error y =>
      match decEq x y with
      | isTrue h => isTrue (by rw [h])
      | isFalse h => isFalse (fun hh => by injection hh; contradiction)
    | Except.ok _, Except.error _ => isFalse (fun hh => by injection hh)
    | Except.error _, Except.ok _ => isFalse (fun hh => by injection hh)

/-- storage.js STORAGE_PREFIX. -/
def STORAGE_PREFIX : String := "lanchat_room_"

/-- storage.js STORAGE_VERSION. -/
def STORAGE_VERSION : Nat := 1

/-- storage.js getStorageKey. -/
def getStorageKey (roomId : String) : String := STORAGE_PREFIX ++ roomId

/-- The parsed shape of a persisted room record, as written by
saveRoomMessages and read back by loadRoomMessages. An Option field models a
JSON field that may be missing (or null) on a record found in storage. -/
structure StoredRecord where
  version : Option Nat
  roomId : String
  messages : Option (List Message)
  timestamp : Option Nat
deriving Repr, DecidableEq

/-- A raw value found under a localStorage key: either text that JSON.parse
rejects (corrupt), or a parsed record. -/
inductive StoredValue where
  | corrupt (raw : String)
  | record (r : StoredRecord)
deriving Repr, DecidableEq

/-- The localStorage contents: an association list from keys to stored
values. Keys are unique in any store produced by the operations below. -/
abbrev Store := List (String × StoredValue)

/-- localStorage.getItem. -/
def getItem : Store → String → Option StoredValue
  | [], _ => none
  | (k, v) :: rest, key => if k = key then some v else getItem rest key

/-- localStorage.removeItem. -/
def removeItem (store : Store) (key : String) : Store :=
  store.filter (fun e => e.1 != key)

/-! Size model. The source measures a stored value by
jsonString.length * 2 (UTF-16 code units, two bytes each). The exact
character count of JSON.stringify is abstracted by a fixed per-field
accounting; no claim below depends on the precise constants, only on the
comparisons the source makes with these sizes. -/

/-- Model of the JSON text length contributed by an optional string field. -/
def jsonLenStr : Option String → Nat
  | none => 0
  | some s => s.length + 12

/-- Model of the JSON text length contributed by an optional numeric field. -/
def jsonLenNat : Option Nat → Nat
  | none => 0
  | some _ => 12

/-- Model of the JSON text length of one serialized message. -/
def jsonLenMessage (m : Message) : Nat :=
  12 + m.type.length + jsonLenStr m.text + jsonLenStr m.name +
    jsonLenStr m.mime + jsonLenNat m.size + jsonLenStr m.data + jsonLenStr m.ts

/-- Model of the JSON text length of one serialized room record. -/
def jsonLenRecord (r : StoredRecord) : Nat :=
  48 + r.roomId.length + jsonLenNat r.version + jsonLenNat r.timestamp +
    ((r.messages.getD []).map jsonLenMessage).sum

/-- The character length of the raw text stored under a key. -/
def encLenValue : StoredValue → Nat
  | StoredValue.corrupt raw => raw.length
  | StoredValue.record r => jsonLenRecord r

/-- storage.js getStorageUsage: total bytes used, two bytes per stored
character (UTF-16). -/
def getStorageUsage (store : Store) : Nat :=
  (store.map (fun e => 2 * encLenValue e.2)).sum

/-- Configuration values consumed from config.js; the defaults are the
config.js defaults, and applyServerConfig clamps overrides
(MAX_MESSAGES to 10..1000, STORAGE_MAX_BYTES to at least 1MB,
STORAGE_MAX_AGE_DAYS to at least 1). -/
structure Config where
  MAX_MESSAGE_BYTES : Nat := 16 * 1024 * 1024
  MAX_MESSAGES : Nat := 100
  STORAGE_MAX_BYTES : Nat := 5 * 1024 * 1024
  STORAGE_MAX_AGE_DAYS : Nat := 7
deriving Repr, DecidableEq

/-- The ambient environment of a storage operation: configuration, the value
of Date.now(), and the browser's actual localStorage capacity in bytes (the
point at which setItem throws QuotaExceededError). -/
structure Env where
  cfg : Config
  now : Nat
  quota : Nat
deriving Repr, DecidableEq

/-- localStorage.setItem under a byte capacity: replaces the key's value, or
throws QuotaExceededError (carrying the unchanged store) when the resulting
usage exceeds the capacity. -/
def setItem (quota : Nat) (store : Store) (key : String) (v : StoredValue) :
    Except (String × Store) Store :=
  let stored := (key, v) :: removeItem store key
  if getStorageUsage stored > quota then
    Except.error ("QuotaExceededError", store)
  else
    Except.ok stored

/-- JavaScript Array.prototype.slice with a negated count:
arr.slice(-count) keeps the last count elements, except that slice(-0) is
slice(0), the whole array. -/
def sliceFromEnd (count : Nat) (l : List Message) : List Message :=
  if count = 0 then l else l.drop (l.length - count)

/-- storage.js cleanupExpiredData: removes every prefixed record whose
timestamp is truthy and older than maxAge (milliseconds, as a rational since
the escalation caller divides the day count), and every prefixed entry that
fails to parse. -/
def cleanupExpiredData (maxAge : ℚ) (now : Nat) (store : Store) : Store :=
  store.filter (fun e =>
    if startsWithM e.1 STORAGE_PREFIX then
      match e.2 with
      | StoredValue.corrupt _ => false
      | StoredValue.record r =>
        match r.timestamp with
        | some ts => if ts ≠ 0 ∧ ((now : ℚ) - (ts : ℚ) > maxAge) then false else true
        | none => true
    else true)

/-- storage.js cleanupNonExistentRooms: removes every prefixed record whose
room id is neither in the existing-rooms list nor the current room. -/
def cleanupNonExistentRooms (existingRooms : List String) (currentRoom : String)
    (store : Store) : Store :=
  store.filter (fun e =>
    if startsWithM e.1 STORAGE_PREFIX then
      let roomId := dropM e.1 STORAGE_PREFIX.length
      if roomId ∈ existingRooms ∨ roomId = currentRoom then true else false
    else true)

/-- storage.js loadRoomMessages: returns the stored message list (at most the
last MAX_MESSAGES entries), the empty list on a missing, corrupt, or
version-mismatched record (removing the latter), and the possibly modified
store. Totality of this definition models the fact that the source catches
every error and returns an array. -/
def loadRoomMessages (cfg : Config) (roomId : String) (store : Store) :
    List Message × Store :=
  let key := getStorageKey roomId
  match getItem store key with
  | none => ([], store)
  | some (StoredValue.corrupt _) => ([], store)
  | some (StoredValue.record data) =>
    if data.version ≠ some STORAGE_VERSION then
      ([], removeItem store key)
    else
      let allMessages := data.messages.getD []
      if allMessages.length > cfg.MAX_MESSAGES then
        (sliceFromEnd cfg.MAX_MESSAGES allMessages, store)
      else
        (allMessages, store)

/-- storage.js saveRoomMessages: filters to the storable messages, pre-checks
the configured byte budget (cleaning expired data and then keeping the most
recent 50% of the new record's own messages when over budget), then writes.
A QuotaExceededError from the write is rethrown to the caller, with any
cleanup performed before the write left in place. -/
def saveRoomMessages (env : Env) (roomId : String) (messages : List Message)
    (store : Store) : Except (String × Store) Store :=
  let storableMessages := messages.filterMap prepareMessageForStorage
  let finalMessages := storableMessages
  let key := getStorageKey roomId
  let data : StoredRecord :=
    { version := some STORAGE_VERSION, roomId := roomId,
      messages := some finalMessages, timestamp := some env.now }
  let newSize := jsonLenRecord data * 2
  let currentUsage := getStorageUsage store
  if currentUsage + newSize > env.cfg.STORAGE_MAX_BYTES then
    let store1 := cleanupExpiredData
      ((env.cfg.STORAGE_MAX_AGE_DAYS : ℚ) * 24 * 60 * 60 * 1000) env.now store
    let currentUsage1 := getStorageUsage store1
    if currentUsage1 + newSize > env.cfg.STORAGE_MAX_BYTES then
      let keepCount := finalMessages.length / 2
      let finalMessages2 := sliceFromEnd keepCount finalMessages
      let data2 := { data with messages := some finalMessages2 }
      setItem env.quota store1 key (StoredValue.record data2)
    else
      setItem env.quota store1 key (StoredValue.record data)
  else
    setItem env.quota store key (StoredValue.record data)

/-- room.js saveCurrentRoomMessages: wraps saveRoomMessages in a try/catch
that catches every error (including QuotaExceededError) and only logs it, so
this wrapper never propagates an error to its caller. -/
def saveCurrentRoomMessages (env : Env) (roomId : String)
    (messages : List Message) (store : Store) : Except (String × Store) Store :=
  match saveRoomMessages env roomId messages store with
  | Except.ok s => Except.ok s
  | Except.error (_, s) => Except.ok s

/-- The age dividers attempted by the escalation loop in main.js:
ageDivider starts at 2 and doubles while it is at most 128. -/
def escalationDividers : List Nat := [2, 4, 8, 16, 32, 64, 128]

/-- main.js quota escalation, step 2: progressively cleans expired data with
maxAge = STORAGE_MAX_AGE_DAYS / ageDivider (the source passes this day count
where cleanupExpiredData expects milliseconds; modelled faithfully) and
retries the save through the room.js wrapper after each cleanup, stopping on
a retry that does not throw. -/
def escalLoop (env : Env) (roomId : String) (messages : List Message) :
    List Nat → Store → Store
  | [], store => store
  | d :: rest, store =>
    let s1 := cleanupExpiredData
      ((env.cfg.STORAGE_MAX_AGE_DAYS : ℚ) / (d : ℚ)) env.now store
    match saveCurrentRoomMessages env roomId messages s1 with
    | Except.ok s2 => s2
    | Except.error (_, s2) => escalLoop env roomId messages rest s2

/-- main.js quota escalation (handlers.message catch branch): step 1 removes
records of rooms absent from the authoritative room list (keeping the current
room) and retries via the room.js wrapper, returning on a retry that does not
throw; otherwise step 2 runs the age-halving loop. -/
def quotaEscalation (env : Env) (existingRooms : List String)
    (currentRoom : String) (messages : List Message) (store : Store) : Store :=
  let s1 := cleanupNonExistentRooms existingRooms currentRoom store
  match saveCurrentRoomMessages env currentRoom messages s1 with
  | Except.ok s2 => s2
  | Except.error (_, s2) => escalLoop env currentRoom messages escalationDividers s2

/-- main.js handlers.message, persistence part: tries
saveCurrentRoomMessages and, when that call throws a QuotaExceededError,
runs the escalation. -/
def messageHandlerPersist (env : Env) (existingRooms : List String)
    (currentRoom : String) (messages : List Message) (store : Store) : Store :=
  match saveCurrentRoomMessages env currentRoom messages store with
  | Except.ok s => s
  | Except.error (name, s) =>
    if name = "QuotaExceededError" then
      quotaEscalation env existingRooms currentRoom messages s
    else s

/-- The store left behind by a fallible storage operation, whether or not it
threw (a throw leaves the mutations made before it). -/
def afterStore : Except (String × Store) Store → Store
  | Except.ok s => s
  | Except.error (_, s) => s

/-- Whether a fallible storage operation completed without throwing. -/
def isOkE : Except (String × Store) Store → Bool
  | Except.ok _ => true
  | Except.error _ => false

/-- The store after saving the same message list twice in succession. -/
def saveTwice (env : Env) (roomId : String) (messages : List Message)
    (store : Store) : Store :=
  afterStore (saveRoomMessages env roomId messages
    (afterStore (saveRoomMessages env roomId messages store)))

/-- The persistable subset as the spec words it: exactly the messages of type
text, status, or file, with the data field removed from file messages. This
definition follows the specification text and is compared against the
source-derived filterMap over prepareMessageForStorage. -/
def persistableSubset (M : List Message) : List Message :=
  (M.filter (fun m => m.type == "text" || m.type == "status" || m.type == "file")).map
    (fun m => if m.type = "file" then { m with data := none } else m)

/-! ## sender.js sendText -/

/-- Modelled from the spec: utf8ByteLength from utils.js (utils.js is not in
the provided sources) — the UTF-8 byte length of a string, per the spec's
size accounting for text messages. -/
def utf8ByteLength (s : String) : Nat := (s.data.map Char.utf8Size).sum

/-- The externally observable action taken by one call to sendText. Only the
send constructor corresponds to a transport.send call; no action closes the
connection. -/
inductive SendTextAct where
  | blockedNoUsername
  | statusSendFail
  | noopEmpty
  | statusTooLong (bytes maxBytes : Nat)
  | send (msg : Message)
deriving Repr, DecidableEq

/-- sender.js sendText: trims the input, requires a username and an open room
connection, ignores empty input, rejects input whose UTF-8 byte length
exceeds MAX_MESSAGE_BYTES with a size-exceeded status message, and otherwise
sends a text envelope. ensureOk models the result of ensureUsername and
roomOpen models isRoomOpen(transport). -/
def sendText (maxBytes : Nat) (ensureOk roomOpen : Bool) (input : String) :
    SendTextAct :=
  let v := jsTrim input
  if ¬ensureOk then SendTextAct.blockedNoUsername
  else if ¬roomOpen then SendTextAct.statusSendFail
  else if v = "" then SendTextAct.noopEmpty
  else
    let bytes := utf8ByteLength v
    if bytes > maxBytes then SendTextAct.statusTooLong bytes maxBytes
    else SendTextAct.send { type := "text", text := some v }

/-! ## transport.js: the Transport connection state machine

The WebSocket transports are modelled as an explicit state machine. A socket
handle is a room id plus a readiness state (connecting, opened, or closing
after a client-side close() call); the asynchronous open/close callbacks and
timer firings arrive as events. wsOpen from utils.js (utils.js is not in the
provided sources) is modelled from the spec: the handle is present and in the
open state. Emitted handler events and imperative actions (creating a socket,
calling close(), sending the username handshake) are collected as outputs. -/

/-- transport.js RETRY_BASE_MS. -/
def RETRY_BASE_MS : Nat := 1000

/-- transport.js RETRY_MAX_MS. -/
def RETRY_MAX_MS : Nat := 8000

/-- Connection scope: the lobby socket or the room socket. -/
inductive Scope where
  | lobby
  | room
deriving Repr, DecidableEq

/-- Readiness of an underlying WebSocket handle. -/
inductive SockSt where
  | connecting
  | opened
  | closing
deriving Repr, DecidableEq

/-- A room-scope socket handle: the room id in its URL and its readiness. -/
structure Sock where
  rid : String
  st : SockSt
deriving Repr, DecidableEq

/-- The mutable state of a Transport instance (transport.js constructor):
socket handles (absent means disconnected), current room id, per-scope retry
delays, per-scope pending reconnect timers (a room timer captures the room id
and the delay value read when it was scheduled), and the manual-close flag. -/
structure TState where
  lobbyWs : Option SockSt
  roomWs : Option Sock
  currentRoom : String
  lobbyRetry : Nat
  roomRetry : Nat
  lobbyTimer : Option Nat
  roomTimer : Option (String × Nat)
  roomManualClose : Bool
deriving Repr, DecidableEq

/-- The state built by the Transport constructor. -/
def initTState : TState :=
  { lobbyWs := none, roomWs := none, currentRoom := "",
    lobbyRetry := RETRY_BASE_MS, roomRetry := RETRY_BASE_MS,
    lobbyTimer := none, roomTimer := none, roomManualClose := false }

/-- Observable outputs of one transport step: handler events emitted via
_emit / _emitConnection, and imperative socket actions. -/
inductive Out where
  | roomSwitch (rid : String)
  | openedEvt (rid : String)
  | closedEvt
  | errorEvt (code : String)
  | connectionEvt (scope : Scope) (state : String) (delay : Option Nat)
  | handshake (username : String)
  | wsCloseCall (scope : Scope)
  | newSocket (scope : Scope) (rid : String)
deriving Repr, DecidableEq

/-- Modelled from the spec: utils.js wsOpen on the room socket — the handle
is present and in the open readiness state. -/
def wsOpenRoom (s : TState) : Bool :=
  match s.roomWs with
  | some k => k.st == SockSt.opened
  | none => false

/-- Modelled from the spec: utils.js wsOpen on the lobby socket. -/
def wsOpenLobby (s : TState) : Bool :=
  s.lobbyWs == some SockSt.opened

/-- transport.js _openRoomSocket: constructs a new room socket (its handlers
then run on later events). -/
def openRoomSocket (s : TState) (rid : String) : TState × List Out :=
  ({ s with roomWs := some ⟨rid, SockSt.connecting⟩ },
   [Out.newSocket Scope.room rid])

/-- transport.js _openLobbySocket. -/
def openLobbySocket (s : TState) : TState × List Out :=
  ({ s with lobbyWs := some SockSt.connecting },
   [Out.newSocket Scope.lobby ""])

/-- transport.js _scheduleReconnect for the room scope: does nothing when a
timer is already pending, the socket is open, or no room id was supplied;
otherwise emits the reconnecting notification with the current retry delay
and sets the timer, capturing the room id and that delay. -/
def scheduleReconnectRoom (s : TState) (rid : String) : TState × List Out :=
  if s.roomTimer.isSome ∨ wsOpenRoom s = true ∨ rid = "" then (s, [])
  else
    ({ s with roomTimer := some (rid, s.roomRetry) },
     [Out.connectionEvt Scope.room "reconnecting" (some s.roomRetry)])

/-- transport.js _scheduleReconnect for the lobby scope. -/
def scheduleReconnectLobby (s : TState) : TState × List Out :=
  if s.lobbyTimer.isSome ∨ wsOpenLobby s = true then (s, [])
  else
    ({ s with lobbyTimer := some s.lobbyRetry },
     [Out.connectionEvt Scope.lobby "reconnecting" (some s.lobbyRetry)])

/-- transport.js _clearTimer on the room scope. -/
def clearRoomTimer (s : TState) : TState := { s with roomTimer := none }

/-- transport.js connectRoom: returns at once when getUsername() is empty;
when the room socket is open to a different room, flags a manual close,
closes the socket, and records the new room id; otherwise records the room
id, emits roomSwitch, clears any pending room timer, and opens a socket. -/
def connectRoom (u : String) (s : TState) (rid : String) : TState × List Out :=
  if u = "" then (s, [])
  else if wsOpenRoom s = true then
    if s.currentRoom = rid then (s, [])
    else
      ({ s with roomManualClose := true,
                roomWs := s.roomWs.map (fun k => ⟨k.rid, SockSt.closing⟩),
                currentRoom := rid },
       [Out.wsCloseCall Scope.room])
  else
    let p := openRoomSocket (clearRoomTimer { s with currentRoom := rid }) rid
    (p.1, Out.roomSwitch rid :: p.2)

/-- transport.js connectLobby. -/
def connectLobby (s : TState) : TState × List Out :=
  if wsOpenLobby s = true then (s, [])
  else openLobbySocket { s with lobbyTimer := none }

/-- The error events emitted for the terminal close codes 1008 and 1009 in
the room close handler. -/
def closeCodeOuts (c : Option Nat) : List Out :=
  if c = some 1008 then [Out.errorEvt "ws_closed_1008"]
  else if c = some 1009 then [Out.errorEvt "ws_closed_1009"]
  else []

/-- transport.js _openRoomSocket open handler: resets the retry delay, then
either sends the {username} handshake and emits opened plus the connected
notification, or (without a username) closes the socket at once. Only a
connecting socket can fire its open callback. -/
def onRoomOpen (u : String) (s : TState) : TState × List Out :=
  match s.roomWs with
  | some k =>
    if k.st = SockSt.connecting then
      let s1 := { s with roomRetry := RETRY_BASE_MS }
      if u = "" then
        ({ s1 with roomWs := some ⟨k.rid, SockSt.closing⟩ },
         [Out.wsCloseCall Scope.room])
      else
        ({ s1 with roomWs := some ⟨k.rid, SockSt.opened⟩ },
         [Out.handshake u, Out.openedEvt k.rid,
          Out.connectionEvt Scope.room "connected" none])
    else (s, [])
  | none => (s, [])

/-- transport.js _openRoomSocket close handler: drops the handle, emits
closed and the 1008/1009 error events, then either re-opens at once against
the current room after a manual close, schedules a backoff reconnect for a
retriable non-manual close, or stops. -/
def onRoomClose (s : TState) (c : Option Nat) : TState × List Out :=
  match s.roomWs with
  | none => (s, [])
  | some _ =>
    let s1 := { s with roomWs := none }
    let errs := closeCodeOuts c
    let manual := s1.roomManualClose
    let s2 := { s1 with roomManualClose := false }
    if manual = true ∧ s2.currentRoom ≠ "" then
      let p := openRoomSocket (clearRoomTimer s2) s2.currentRoom
      (p.1, Out.closedEvt :: (errs ++ Out.roomSwitch s2.currentRoom :: p.2))
    else
      if (manual = false ∧ c ≠ some 1008 ∧ c ≠ some 1009) ∧ s2.currentRoom ≠ "" then
        let p := scheduleReconnectRoom s2 s2.currentRoom
        (p.1, Out.closedEvt :: (errs ++ p.2))
      else
        (s2, Out.closedEvt :: errs)

/-- transport.js _scheduleReconnect room timer callback: clears the timer,
doubles the retry delay up to the cap, and opens a socket against the
captured room id only when a username is present. -/
def onRoomTimerFire (u : String) (s : TState) : TState × List Out :=
  match s.roomTimer with
  | none => (s, [])
  | some (rid, r) =>
    let s1 := { s with roomTimer := none,
                       roomRetry := min (r * 2) RETRY_MAX_MS }
    if u = "" then (s1, []) else openRoomSocket s1 rid

/-- transport.js _openLobbySocket open handler. -/
def onLobbyOpen (s : TState) : TState × List Out :=
  match s.lobbyWs with
  | some SockSt.connecting =>
    ({ s with lobbyWs := some SockSt.opened, lobbyRetry := RETRY_BASE_MS },
     [Out.connectionEvt Scope.lobby "connected" none])
  | _ => (s, [])

/-- transport.js _openLobbySocket close handler: drops the handle and
schedules a lobby reconnect. -/
def onLobbyClose (s : TState) : TState × List Out :=
  match s.lobbyWs with
  | none => (s, [])
  | some _ => scheduleReconnectLobby { s with lobbyWs := none }

/-- transport.js _scheduleReconnect lobby timer callback: clears the timer,
doubles the retry delay up to the cap, and reopens the lobby socket. -/
def onLobbyTimerFire (s : TState) : TState × List Out :=
  match s.lobbyTimer with
  | none => (s, [])
  | some r =>
    openLobbySocket { s with lobbyTimer := none,
                             lobbyRetry := min (r * 2) RETRY_MAX_MS }

/-- An event delivered to the Transport: a method call from the session
controller, an asynchronous socket callback, or a timer firing. -/
inductive TEvent where
  | connectRoom (rid : String)
  | connectLobby
  | roomOpen
  | roomClose (c : Option Nat)
  | roomTimerFire
  | lobbyOpen
  | lobbyClose
  | lobbyTimerFire
deriving Repr, DecidableEq

/-- One step of the Transport machine under the current getUsername()
value u. -/
def step (u : String) (s : TState) : TEvent → TState × List Out
  | TEvent.connectRoom rid => connectRoom u s rid
  | TEvent.connectLobby => connectLobby s
  | TEvent.roomOpen => onRoomOpen u s
  | TEvent.roomClose c => onRoomClose s c
  | TEvent.roomTimerFire => onRoomTimerFire u s
  | TEvent.lobbyOpen => onLobbyOpen s
  | TEvent.lobbyClose => onLobbyClose s
  | TEvent.lobbyTimerFire => onLobbyTimerFire s

/-- Run a sequence of events, concatenating the outputs. -/
def run (u : String) (s : TState) : List TEvent → TState × List Out
  | [] => (s, [])
  | e :: es =>
    let p := step u s e
    let q := run u p.1 es
    (q.1, p.2 ++ q.2)

/-! ## The reconnect-delay law (claim C3) -/

/-- The delay-relevant happenings of one scope: a reconnect scheduled with a
given delay, or a successful open (which resets the delay). -/
inductive DEvt where
  | sched (d : Nat)
  | reset
deriving Repr, DecidableEq

/-- Projection of an output onto the room scope's delay-relevant trace. -/
def roomDelayEvt : Out → Option DEvt
  | Out.connectionEvt Scope.room "reconnecting" (some d) => some (DEvt.sched d)
  | Out.connectionEvt Scope.room "connected" _ => some DEvt.reset
  | _ => none

/-- Projection of an output onto the lobby scope's delay-relevant trace. -/
def lobbyDelayEvt : Out → Option DEvt
  | Out.connectionEvt Scope.lobby "reconnecting" (some d) => some (DEvt.sched d)
  | Out.connectionEvt Scope.lobby "connected" _ => some DEvt.reset
  | _ => none

/-- The room scope's delay-relevant trace of a run. -/
def roomTrace (u : String) (s : TState) (es : List TEvent) : List DEvt :=
  (run u s es).2.filterMap roomDelayEvt

/-- The lobby scope's delay-relevant trace of a run. -/
def lobbyTrace (u : String) (s : TState) (es : List TEvent) : List DEvt :=
  (run u s es).2.filterMap lobbyDelayEvt

/-- The spec's delay law: starting from expected delay r, every scheduled
delay equals the expected delay, the next expected delay is
min(2 * d, RETRY_MAX_MS), and a successful open resets the expected delay to
RETRY_BASE_MS. -/
def delayLawB : Nat → List DEvt → Bool
  | _, [] => true
  | r, DEvt.sched d :: rest => (d == r) && delayLawB (min (d * 2) RETRY_MAX_MS) rest
  | _, DEvt.reset :: rest => delayLawB RETRY_BASE_MS rest

/-- The delays scheduled in a delay-relevant trace, in order. -/
def scheds (tr : List DEvt) : List Nat :=
  tr.filterMap (fun e => match e with | DEvt.sched d => some d | _ => none)

/-- The delay the spec automaton expects next for the room scope: the
captured delay doubled (capped) when a timer is pending, else the current
retry value. -/
def specRoom (s : TState) : Nat :=
  match s.roomTimer with
  | some (_, r) => min (r * 2) RETRY_MAX_MS
  | none => s.roomRetry

/-- The delay the spec automaton expects next for the lobby scope. -/
def specLobby (s : TState) : Nat :=
  match s.lobbyTimer with
  | some r => min (r * 2) RETRY_MAX_MS
  | none => s.lobbyRetry

/-- Events that are neither manual connect calls nor lobby-message-driven
connects: the automatic failure/retry events of both scopes. -/
def noManualEvt : TEvent → Bool
  | TEvent.connectRoom _ => false
  | TEvent.connectLobby => false
  | _ => true

/-- Consistency of a Transport state: a pending timer stores the retry value
it captured and coexists only with an absent socket of its scope, no manual
close is in flight, and both retry delays are within
[RETRY_BASE_MS, RETRY_MAX_MS]. The constructed initial state satisfies it. -/
def TInv (s : TState) : Prop :=
  (∀ rid r, s.roomTimer = some (rid, r) → r = s.roomRetry) ∧
  (s.roomTimer = none ∨ s.roomWs = none) ∧
  (∀ r, s.lobbyTimer = some r → r = s.lobbyRetry) ∧
  (s.lobbyTimer = none ∨ s.lobbyWs = none) ∧
  s.roomManualClose = false ∧
  RETRY_BASE_MS ≤ s.roomRetry ∧ s.roomRetry ≤ RETRY_MAX_MS ∧
  RETRY_BASE_MS ≤ s.lobbyRetry ∧ s.lobbyRetry ≤ RETRY_MAX_MS

/-! ## Concrete instances used by witnesses and counterexamples -/

/-- A small text message. -/
def msgText : Message := { type := "text", text := some "hi" }

/-- A small file message carrying payload bytes in its data field. -/
def msgFile : Message :=
  { type := "file", name := some "f.bin", mime := some "app",
    size := some 3, data := some "AAA" }

/-- A message of a kind that is not persisted. -/
def msgRename : Message := { type := "rename", name := some "bob" }

/-- Default configuration, ample browser capacity. -/
def envBig : Env := { cfg := {}, now := 100, quota := 2 ^ 40 }

/-- Round-trip witness input: one of each persistable kind plus one that is
not persisted. -/
def c1M : List Message := [msgText, msgFile, msgRename]

/-- The store written by saving c1M into an empty store under room r. -/
def c1saved : Store :=
  [(getStorageKey "r", StoredValue.record
    { version := some STORAGE_VERSION, roomId := "r",
      messages := some [msgText, { msgFile with data := none }],
      timestamp := some 100 })]

/-- Environment for the count-trim counterexample. -/
def c4env : Env := { cfg := {}, now := 7, quota := 2 ^ 40 }

/-- 101 storable messages: one more than the default MAX_MESSAGES. -/
def c4M : List Message := List.replicate 101 msgText

/-- The store written by saving c4M into an empty store under room r. -/
def c4saved : Store :=
  [(getStorageKey "r", StoredValue.record
    { version := some STORAGE_VERSION, roomId := "r",
      messages := some (List.replicate 101 msgText), timestamp := some 7 })]

/-- Environment with the browser storage at capacity (10 bytes). -/
def c2env : Env := { cfg := {}, now := 5, quota := 10 }

/-- A store holding one record for a room that no longer exists. -/
def c2store : Store :=
  [("lanchat_room_old", StoredValue.record
    { version := some STORAGE_VERSION, roomId := "old",
      messages := some [], timestamp := some 3 })]

/-- Environment for the double-save counterexample, failing writes. -/
def c9envA : Env := { cfg := {}, now := 4, quota := 10 }

/-- Environment for the double-save counterexample, budget overshoot. -/
def c9envB : Env := { cfg := {}, now := 0, quota := 2 ^ 40 }

/-- A 2.7-million-character raw value (5.4MB at two bytes per character). -/
def bigRaw : String := String.mk (List.replicate 2700000 'a')

/-- A store whose usage already exceeds the configured budget through a
non-room key that no cleanup ever touches. -/
def c9storeB : Store := [("lanchat_username", StoredValue.corrupt bigRaw)]

/-- The default configuration. -/
def cfg0 : Config := {}

/-- The store written by saving [msgText] into an empty store under room w. -/
def c4wsaved : Store :=
  [(getStorageKey "w", StoredValue.record
    { version := some STORAGE_VERSION, roomId := "w",
      messages := some [msgText], timestamp := some 100 })]

/-- A stored record with a mismatched schema-version tag. -/
def c10store : Store :=
  [(getStorageKey "r", StoredValue.record
    { version := some 2, roomId := "r", messages := some [], timestamp := some 0 })]

/-- A transport state with both sockets open, used to drive failure runs. -/
def c3state : TState :=
  { lobbyWs := some SockSt.opened, roomWs := some ⟨"a", SockSt.opened⟩,
    currentRoom := "a", lobbyRetry := RETRY_BASE_MS, roomRetry := RETRY_BASE_MS,
    lobbyTimer := none, roomTimer := none, roomManualClose := false }

/-- Three consecutive room failures and two lobby failures. -/
def c3events : List TEvent :=
  [TEvent.roomClose none, TEvent.roomTimerFire, TEvent.roomClose none,
   TEvent.roomTimerFire, TEvent.roomClose none,
   TEvent.lobbyClose, TEvent.lobbyTimerFire, TEvent.lobbyClose]

/-- A transport state with the room socket open to room a. -/
def c6state : TState :=
  { lobbyWs := none, roomWs := some ⟨"a", SockSt.opened⟩, currentRoom := "a",
    lobbyRetry := RETRY_BASE_MS, roomRetry := RETRY_BASE_MS,
    lobbyTimer := none, roomTimer := none, roomManualClose := false }

/-- A transport state with a connecting room socket. -/
def c7state : TState :=
  { lobbyWs := none, roomWs := some ⟨"a", SockSt.connecting⟩, currentRoom := "a",
    lobbyRetry := RETRY_BASE_MS, roomRetry := RETRY_BASE_MS,
    lobbyTimer := none, roomTimer := none, roomManualClose := false }

/-! ## Helper lemmas -/

theorem getItem_insert_self (store : Store) (key : String) (v : StoredValue) :
    getItem ((key, v) :: removeItem store key) key = some v := by
  simp [getItem]

/-- Any successful save leaves, under the room's key, a version-tagged record
whose message list is either all storable messages or their most recent
half. -/
theorem save_ok_shape (env : Env) (roomId : String) (M : List Message)
    (store s2 : Store) (h : saveRoomMessages env roomId M store = Except.ok s2) :
    ∃ msgs,
      getItem s2 (getStorageKey roomId) =
        some (StoredValue.record
          { version := some STORAGE_VERSION, roomId := roomId,
            messages := some msgs, timestamp := some env.now }) ∧
      (msgs = M.filterMap prepareMessageForStorage ∨
        msgs = sliceFromEnd ((M.filterMap prepareMessageForStorage).length / 2)
          (M.filterMap prepareMessageForStorage)) := by
  simp only [saveRoomMessages, setItem] at h
  split at h
  · split at h
    · split at h
      · exact absurd h (by simp)
      · injection h with h2
        subst h2
        exact ⟨_, getItem_insert_self _ _ _, Or.inr rfl⟩
    · split at h
      · exact absurd h (by simp)
      · injection h with h2
        subst h2
        exact ⟨_, getItem_insert_self _ _ _, Or.inl rfl⟩
  · split at h
    · exact absurd h (by simp)
    · injection h with h2
      subst h2
      exact ⟨_, getItem_insert_self _ _ _, Or.inl rfl⟩

theorem sliceFromEnd_suffix (k : Nat) (l : List Message) :
    (sliceFromEnd k l).IsSuffix l := by
  unfold sliceFromEnd
  split
  · exact List.suffix_refl l
  · exact List.drop_suffix _ l

/-- The source's storable-message filter computes exactly the persistable
subset as the spec words it. -/
theorem persistable_eq (M : List Message) :
    M.filterMap prepareMessageForStorage = persistableSubset M := by
  induction M with
  | nil => rfl
  | cons m t ih =>
    by_cases h1 : m.type = "text"
    · simp [List.filterMap_cons, persistableSubset, List.filter_cons,
        prepareMessageForStorage, h1, ih]
    · by_cases h2 : m.type = "status"
      · simp [List.filterMap_cons, persistableSubset, List.filter_cons,
          prepareMessageForStorage, h1, h2, ih]
      · by_cases h3 : m.type = "file"
        · simp [List.filterMap_cons, persistableSubset, List.filter_cons,
            prepareMessageForStorage, h1, h2, h3, ih]
        · simp [List.filterMap_cons, persistableSubset, List.filter_cons,
            prepareMessageForStorage, h1, h2, h3, ih]

/-- Every file-type message in the persistable subset has no data field. -/
theorem persistable_file_data_none (M : List Message) :
    ∀ m ∈ persistableSubset M, m.type = "file" → m.data = none := by
  intro m hm hf
  simp only [persistableSubset, List.mem_map, List.mem_filter] at hm
  obtain ⟨m0, _, rfl⟩ := hm
  by_cases h : m0.type = "file"
  · simp [h]
  · rw [if_neg h] at hf ⊢
    exact absurd hf h

/-! ## Claim C10 -/

/-- C10: for every room id and every stored value under its key — absent,
non-JSON text, a record with a missing or mismatched version tag, or a
record with no messages field — loadRoomMessages returns an array (it is a
total function of this model) and returns the empty array in each degenerate
case, additionally removing the stored record when the version tag is
missing or mismatched. -/
theorem c10_load_robust_on_degenerate_stores (cfg : Config) (roomId : String)
    (store : Store) :
    (getItem store (getStorageKey roomId) = none →
      loadRoomMessages cfg roomId store = ([], store)) ∧
    (∀ raw, getItem store (getStorageKey roomId) = some (StoredValue.corrupt raw) →
      loadRoomMessages cfg roomId store = ([], store)) ∧
    (∀ rec, getItem store (getStorageKey roomId) = some (StoredValue.record rec) →
      rec.version ≠ some STORAGE_VERSION →
      loadRoomMessages cfg roomId store =
        ([], removeItem store (getStorageKey roomId))) ∧
    (∀ rec, getItem store (getStorageKey roomId) = some (StoredValue.record rec) →
      rec.version = some STORAGE_VERSION → rec.messages = none →
      loadRoomMessages cfg roomId store = ([], store)) := by
  refine ⟨fun h => ?_, fun raw h => ?_, fun rec h hv => ?_, fun rec h hv hm => ?_⟩
  · simp [loadRoomMessages, h]
  · simp [loadRoomMessages, h]
  · simp [loadRoomMessages, h, hv]
  · simp [loadRoomMessages, h, hv, hm]

/-- Witness for C10: a concrete version-mismatched record is discarded and
removed. -/
theorem c10_load_robust_on_degenerate_stores_witness :
    loadRoomMessages cfg0 "r" c10store =
      ([], removeItem c10store (getStorageKey "r")) :=
  (c10_load_robust_on_degenerate_stores cfg0 "r" c10store).2.2.1
    { version := some 2, roomId := "r", messages := some [], timestamp := some 0 }
    (by decide) (by decide)

/-! ## Claim C5 -/

/-- C5: for every text input whose UTF-8 byte length (of the trimmed value
that would be sent) exceeds MAX_MESSAGE_BYTES, sendText with a username
present and the room connection open reports the size-exceeded status and,
under every guard combination, never performs transport.send; no branch of
sendText closes the connection. -/
theorem c5_oversize_text_never_sent (maxBytes : Nat) (input : String)
    (h : utf8ByteLength (jsTrim input) > maxBytes) :
    sendText maxBytes true true input =
      SendTextAct.statusTooLong (utf8ByteLength (jsTrim input)) maxBytes ∧
    (∀ (e r : Bool) (m : Message), sendText maxBytes e r input ≠ SendTextAct.send m) := by
  have hne : jsTrim input ≠ "" := by
    intro h0
    rw [h0] at h
    exact absurd h (by intro hlt; simp [utf8ByteLength] at hlt)
  constructor
  · simp [sendText, hne, h]
  · intro e r m
    cases e <;> cases r <;> simp [sendText, hne, h]

/-- Witness for C5 at a concrete oversize input. -/
theorem c5_oversize_text_never_sent_witness :
    utf8ByteLength (jsTrim "ab") > 1 ∧
    (sendText 1 true true "ab" =
      SendTextAct.statusTooLong (utf8ByteLength (jsTrim "ab")) 1 ∧
    (∀ (e r : Bool) (m : Message), sendText 1 e r "ab" ≠ SendTextAct.send m)) :=
  ⟨by decide, c5_oversize_text_never_sent 1 "ab" (by decide)⟩

/-! ## Claim C2 -/

/-- C2: the quota-escalation strategy of main.js is dead code. The wrapper
saveCurrentRoomMessages in room.js catches every error, so the
QuotaExceededError rethrown by saveRoomMessages (whose own comment says the
caller is to run the higher-level cleanup) never reaches the catch in
main.js: the message handler's persistence equals the bare save attempt for
all inputs, and at a concrete quota-exhausted input the save throws
QuotaExceededError, the handler leaves the store unchanged (the stale record
of the non-existent room old survives and nothing is saved), while the
escalation, had it run, would have removed that stale record. -/
theorem c2_quota_escalation_unreachable :
    (∀ (env : Env) (ex : List String) (cur : String) (M : List Message)
      (store : Store),
      messageHandlerPersist env ex cur M store =
        afterStore (saveRoomMessages env cur M store)) ∧
    saveRoomMessages c2env "room1" [msgText] c2store =
      Except.error ("QuotaExceededError", c2store) ∧
    messageHandlerPersist c2env ["lobby"] "room1" [msgText] c2store = c2store ∧
    getItem (quotaEscalation c2env ["lobby"] "room1" [msgText] c2store)
      "lanchat_room_old" = none := by
  refine ⟨fun env ex cur M store => ?_, by decide, by decide, by decide⟩
  unfold messageHandlerPersist saveCurrentRoomMessages afterStore
  cases h : saveRoomMessages env cur M store with
  | ok s => simp
  | error e =>
    cases e with
    | mk a b => simp

/-! ## Claim C1 -/

/-- C1: after a save of M under room r that does not fail, loading r yields a
suffix (hence an in-order subsequence) of the persistable subset of M —
exactly the messages of type text, status, or file, with the data field
removed from every file message — bounded to at most MAX_MESSAGES entries;
in particular no loaded file message carries payload bytes. The hypothesis
0 < MAX_MESSAGES reflects the config clamp (MAX_MESSAGES is 100 by default
and overrides are clamped to 10..1000). -/
theorem c1_cache_round_trip (env : Env) (roomId : String) (M : List Message)
    (store s2 : Store) (hmax : 0 < env.cfg.MAX_MESSAGES)
    (h : saveRoomMessages env roomId M store = Except.ok s2) :
    (loadRoomMessages env.cfg roomId s2).1.IsSuffix (persistableSubset M) ∧
    (loadRoomMessages env.cfg roomId s2).1.Sublist (persistableSubset M) ∧
    (loadRoomMessages env.cfg roomId s2).1.length ≤ env.cfg.MAX_MESSAGES ∧
    (∀ m ∈ (loadRoomMessages env.cfg roomId s2).1,
      m.type = "file" → m.data = none) := by
  obtain ⟨msgs, hget, hcase⟩ := save_ok_shape env roomId M store s2 h
  have hsub : msgs.IsSuffix (persistableSubset M) := by
    rw [← persistable_eq]
    rcases hcase with rfl | rfl
    · exact List.suffix_refl _
    · exact sliceFromEnd_suffix _ _
  have hload : (loadRoomMessages env.cfg roomId s2).1 =
      (if msgs.length > env.cfg.MAX_MESSAGES then
        sliceFromEnd env.cfg.MAX_MESSAGES msgs else msgs) := by
    simp only [loadRoomMessages, hget]
    by_cases hc : env.cfg.MAX_MESSAGES < msgs.length <;> simp [hc]
  have hLsub : (loadRoomMessages env.cfg roomId s2).1.IsSuffix
      (persistableSubset M) := by
    rw [hload]
    split
    · exact (sliceFromEnd_suffix _ _).trans hsub
    · exact hsub
  have hlen : (loadRoomMessages env.cfg roomId s2).1.length ≤
      env.cfg.MAX_MESSAGES := by
    rw [hload]
    split
    · rename_i hgt
      unfold sliceFromEnd
      rw [if_neg (by omega)]
      simp only [List.length_drop]
      omega
    · rename_i hgt
      omega
  exact ⟨hLsub, hLsub.sublist, hlen,
    fun m hm hf => persistable_file_data_none M m (hLsub.subset hm) hf⟩

/-- Witness for C1 at a concrete save of a text, a file (with payload), and
a rename message into an empty store. -/
theorem c1_cache_round_trip_witness :
    0 < envBig.cfg.MAX_MESSAGES ∧
    saveRoomMessages envBig "r" c1M [] = Except.ok c1saved ∧
    ((loadRoomMessages envBig.cfg "r" c1saved).1.IsSuffix (persistableSubset c1M) ∧
    (loadRoomMessages envBig.cfg "r" c1saved).1.Sublist (persistableSubset c1M) ∧
    (loadRoomMessages envBig.cfg "r" c1saved).1.length ≤ envBig.cfg.MAX_MESSAGES ∧
    (∀ m ∈ (loadRoomMessages envBig.cfg "r" c1saved).1,
      m.type = "file" → m.data = none)) :=
  ⟨by decide, by decide,
    c1_cache_round_trip envBig "r" c1M [] c1saved (by decide) (by decide)⟩

/-! ## Claim C4 -/

/-- Counterexample to C4 as stated: with the default configuration
(MAX_MESSAGES = 100) and ample capacity, saving 101 storable messages
persists a record holding all 101 messages — saveRoomMessages performs no
trim to the maximum retained count before writing. -/
theorem c4_counterexample :
    saveRoomMessages c4env "r" c4M [] = Except.ok c4saved ∧
    getItem c4saved (getStorageKey "r") =
      some (StoredValue.record
        { version := some STORAGE_VERSION, roomId := "r",
          messages := some (List.replicate 101 msgText), timestamp := some 7 }) ∧
    (List.replicate 101 msgText).length = 101 ∧
    c4env.cfg.MAX_MESSAGES = 100 := by
  refine ⟨by decide, by decide, by decide, by decide⟩

/-- C4 amended: saveRoomMessages persists exactly the messages of
persistable kind (status, text, and file reduced to metadata only) — the
whole persistable subset, or its most recent half when the projected usage
still exceeds the byte budget after expiry cleanup — but applies no
MAX_MESSAGES count trim before writing; the count bound is enforced at load
time instead. -/
theorem c4_save_persists_persistable_untrimmed (env : Env) (roomId : String)
    (M : List Message) (store s2 : Store)
    (h : saveRoomMessages env roomId M store = Except.ok s2) :
    ∃ msgs,
      getItem s2 (getStorageKey roomId) =
        some (StoredValue.record
          { version := some STORAGE_VERSION, roomId := roomId,
            messages := some msgs, timestamp := some env.now }) ∧
      (msgs = persistableSubset M ∨
        msgs = sliceFromEnd ((persistableSubset M).length / 2)
          (persistableSubset M)) := by
  obtain ⟨msgs, hget, hcase⟩ := save_ok_shape env roomId M store s2 h
  rw [persistable_eq] at hcase
  exact ⟨msgs, hget, hcase⟩

/-- Witness for the amended C4 at a concrete single-message save. -/
theorem c4_save_persists_persistable_untrimmed_witness :
    saveRoomMessages envBig "w" [msgText] [] = Except.ok c4wsaved ∧
    (∃ msgs,
      getItem c4wsaved (getStorageKey "w") =
        some (StoredValue.record
          { version := some STORAGE_VERSION, roomId := "w",
            messages := some msgs, timestamp := some 100 }) ∧
      (msgs = persistableSubset [msgText] ∨
        msgs = sliceFromEnd ((persistableSubset [msgText]).length / 2)
          (persistableSubset [msgText]))) :=
  ⟨by decide,
    c4_save_persists_persistable_untrimmed envBig "w" [msgText] [] c4wsaved
      (by decide)⟩

/-! ## Claim C9 -/

/-- Any save is one setItem on either the store or its expiry-cleaned form,
writing a version-tagged record whose message list is a suffix of the
storable messages. -/
theorem save_cases (env : Env) (rid : String) (M : List Message) (store : Store) :
    ∃ s1 msgs,
      (s1 = store ∨ s1 = cleanupExpiredData
        ((env.cfg.STORAGE_MAX_AGE_DAYS : ℚ) * 24 * 60 * 60 * 1000) env.now store) ∧
      msgs.IsSuffix (M.filterMap prepareMessageForStorage) ∧
      saveRoomMessages env rid M store =
        setItem env.quota s1 (getStorageKey rid)
          (StoredValue.record
            { version := some STORAGE_VERSION, roomId := rid,
              messages := some msgs, timestamp := some env.now }) := by
  simp only [saveRoomMessages]
  split
  · split
    · exact ⟨_, _, Or.inr rfl, sliceFromEnd_suffix _ _, rfl⟩
    · exact ⟨_, _, Or.inr rfl, List.suffix_refl _, rfl⟩
  · exact ⟨_, _, Or.inl rfl, List.suffix_refl _, rfl⟩

/-- setItem either succeeds within the capacity or throws leaving the store
untouched. -/
theorem setItem_cases (quota : Nat) (store : Store) (key : String)
    (v : StoredValue) :
    (setItem quota store key v = Except.ok ((key, v) :: removeItem store key) ∧
      getStorageUsage ((key, v) :: removeItem store key) ≤ quota) ∨
    setItem quota store key v = Except.error ("QuotaExceededError", store) := by
  simp only [setItem]
  split
  · exact Or.inr rfl
  · rename_i hle
    exact Or.inl ⟨rfl, by omega⟩

/-- Filtering a store never increases its usage. -/
theorem usage_filter_le (p : String × StoredValue → Bool) (store : Store) :
    getStorageUsage (store.filter p) ≤ getStorageUsage store := by
  induction store with
  | nil => simp [getStorageUsage]
  | cons e t ih =>
    simp only [getStorageUsage, List.filter_cons, List.map_cons, List.sum_cons] at *
    split
    · simp only [List.map_cons, List.sum_cons]
      omega
    · omega

/-- Filtering a store preserves key uniqueness. -/
theorem nodupKeys_filter (p : String × StoredValue → Bool) (store : Store)
    (h : (store.map Prod.fst).Nodup) : ((store.filter p).map Prod.fst).Nodup :=
  List.Nodup.sublist (List.Sublist.map Prod.fst (List.filter_sublist store)) h

/-- Replacing a key's value preserves key uniqueness. -/
theorem nodupKeys_setIns (store : Store) (key : String) (v : StoredValue)
    (h : (store.map Prod.fst).Nodup) :
    (((key, v) :: removeItem store key).map Prod.fst).Nodup := by
  simp only [List.map_cons, List.nodup_cons]
  refine ⟨?_, nodupKeys_filter _ _ h⟩
  intro hmem
  simp only [removeItem, List.mem_map] at hmem
  obtain ⟨e, he, heq⟩ := hmem
  rw [List.mem_filter] at he
  have hne : e.1 ≠ key := by simpa using he.2
  exact hne heq

/-- The store a save leaves behind keeps unique keys. -/
theorem save_after_nodup (env : Env) (rid : String) (M : List Message)
    (store : Store) (hnd : (store.map Prod.fst).Nodup) :
    ((afterStore (saveRoomMessages env rid M store)).map Prod.fst).Nodup := by
  obtain ⟨s1, msgs, hs1, _, hsave⟩ := save_cases env rid M store
  have hnd1 : (s1.map Prod.fst).Nodup := by
    rcases hs1 with rfl | rfl
    · exact hnd
    · exact nodupKeys_filter _ _ hnd
  rw [hsave]
  rcases setItem_cases env.quota s1 (getStorageKey rid) _ with ⟨hok, _⟩ | herr
  · rw [hok]
    exact nodupKeys_setIns _ _ _ hnd1
  · rw [herr]
    exact hnd1

/-- The store a save leaves behind uses at most max(initial usage,
capacity) bytes. -/
theorem save_after_usage (env : Env) (rid : String) (M : List Message)
    (store : Store) :
    getStorageUsage (afterStore (saveRoomMessages env rid M store)) ≤
      max (getStorageUsage store) env.quota := by
  obtain ⟨s1, msgs, hs1, _, hsave⟩ := save_cases env rid M store
  have hus1 : getStorageUsage s1 ≤ getStorageUsage store := by
    rcases hs1 with rfl | rfl
    · exact le_refl _
    · exact usage_filter_le _ _
  rw [hsave]
  rcases setItem_cases env.quota s1 (getStorageKey rid) _ with ⟨hok, hle⟩ | herr
  · rw [hok]
    exact le_max_of_le_right hle
  · rw [herr]
    exact le_max_of_le_left hus1

/-- A non-room entry under a different key survives a save of room rid. -/
theorem save_keeps_nonroom (env : Env) (rid : String) (M : List Message)
    (store : Store) (e : String × StoredValue) (he : e ∈ store)
    (hpref : startsWithM e.1 STORAGE_PREFIX = false)
    (hne : e.1 ≠ getStorageKey rid) :
    e ∈ afterStore (saveRoomMessages env rid M store) := by
  obtain ⟨s1, msgs, hs1, _, hsave⟩ := save_cases env rid M store
  have he1 : e ∈ s1 := by
    rcases hs1 with rfl | rfl
    · exact he
    · exact List.mem_filter.mpr ⟨he, by simp [hpref]⟩
  rw [hsave]
  rcases setItem_cases env.quota s1 (getStorageKey rid) _ with ⟨hok, _⟩ | herr
  · rw [hok]
    refine List.mem_cons_of_mem _ (List.mem_filter.mpr ⟨he1, by simpa using hne⟩)
  · rw [herr]
    exact he1

/-- A member entry contributes its size to the usage. -/
theorem usage_ge_of_mem (store : Store) (k : String) (v : StoredValue)
    (he : (k, v) ∈ store) : 2 * encLenValue v ≤ getStorageUsage store :=
  List.single_le_sum (fun _ _ => Nat.zero_le _) _
    (List.mem_map_of_mem _ he)

/-- A record whose timestamp is the current time survives an expiry cleanup
with a nonnegative age window at the head of the store. -/
theorem cleanup_fresh_head (maxAge : ℚ) (hma : 0 ≤ maxAge) (now : Nat)
    (key : String) (vv : Option Nat) (rid2 : String)
    (ms : Option (List Message)) (rest : Store) :
    cleanupExpiredData maxAge now
      ((key, StoredValue.record
        { version := vv, roomId := rid2, messages := ms,
          timestamp := some now }) :: rest) =
    (key, StoredValue.record
      { version := vv, roomId := rid2, messages := ms,
        timestamp := some now }) :: cleanupExpiredData maxAge now rest := by
  have h2 : ¬((now : ℚ) - (now : ℚ) > maxAge) := by
    rw [sub_self]
    exact not_lt.mpr hma
  have h3 : ¬(now ≠ 0 ∧ ((now : ℚ) - (now : ℚ) > maxAge)) := fun hh => h2 hh.2
  simp only [cleanupExpiredData, List.filter_cons]
  by_cases hsw : startsWithM key STORAGE_PREFIX
  · simp [hsw, h3]
    exact fun _ => hma
  · simp [hsw]

/-- C9 amended: saving the same list twice keeps the store's keys unique (so
at most one record sits under the room's key); when at least one of the two
writes succeeds, the room's key holds exactly one record whose message list
is a suffix of the persistable subset of M — no entry is duplicated by the
repeated save; and the total byte usage never exceeds the larger of the
initial usage and the underlying storage capacity. The configured
STORAGE_MAX_BYTES budget itself is not what bounds the final usage, and a
doubly-failed save may leave no record at all (see the counterexample). -/
theorem c9_double_save_amended (env : Env) (roomId : String)
    (M : List Message) (store : Store) (hnd : (store.map Prod.fst).Nodup) :
    ((saveTwice env roomId M store).map Prod.fst).Nodup ∧
    getStorageUsage (saveTwice env roomId M store) ≤
      max (getStorageUsage store) env.quota ∧
    ((isOkE (saveRoomMessages env roomId M store) = true ∨
      isOkE (saveRoomMessages env roomId M
        (afterStore (saveRoomMessages env roomId M store))) = true) →
      ∃ msgs,
        getItem (saveTwice env roomId M store) (getStorageKey roomId) =
          some (StoredValue.record
            { version := some STORAGE_VERSION, roomId := roomId,
              messages := some msgs, timestamp := some env.now }) ∧
        msgs.IsSuffix (persistableSubset M)) := by
  refine ⟨?_, ?_, ?_⟩
  · exact save_after_nodup env roomId M _ (save_after_nodup env roomId M store hnd)
  · refine le_trans (save_after_usage env roomId M _) ?_
    exact max_le (save_after_usage env roomId M store) (le_max_right _ _)
  · intro hok
    obtain ⟨t1, msgs2, ht1, hsuf2, hsave2⟩ :=
      save_cases env roomId M (afterStore (saveRoomMessages env roomId M store))
    rcases setItem_cases env.quota t1 (getStorageKey roomId)
        (StoredValue.record
          { version := some STORAGE_VERSION, roomId := roomId,
            messages := some msgs2, timestamp := some env.now }) with ⟨hok2, _⟩ | herr2
    · refine ⟨msgs2, ?_, by rw [← persistable_eq]; exact hsuf2⟩
      unfold saveTwice
      rw [hsave2, hok2]
      exact getItem_insert_self _ _ _
    · have hfail2 : isOkE (saveRoomMessages env roomId M
          (afterStore (saveRoomMessages env roomId M store))) = false := by
        rw [hsave2, herr2]
        rfl
      have hok1 : isOkE (saveRoomMessages env roomId M store) = true := by
        rcases hok with h | h
        · exact h
        · rw [hfail2] at h
          exact absurd h (by simp)
      obtain ⟨u1, msgs1, hu1, hsuf1, hsave1⟩ := save_cases env roomId M store
      rcases setItem_cases env.quota u1 (getStorageKey roomId)
          (StoredValue.record
            { version := some STORAGE_VERSION, roomId := roomId,
              messages := some msgs1, timestamp := some env.now }) with ⟨hok1e, _⟩ | herr1
      · have hs1 : afterStore (saveRoomMessages env roomId M store) =
            (getStorageKey roomId, StoredValue.record
              { version := some STORAGE_VERSION, roomId := roomId,
                messages := some msgs1, timestamp := some env.now }) ::
              removeItem u1 (getStorageKey roomId) := by
          rw [hsave1, hok1e]
          rfl
        have hsw : saveTwice env roomId M store = t1 := by
          unfold saveTwice
          rw [hsave2, herr2]
          rfl
        refine ⟨msgs1, ?_, by rw [← persistable_eq]; exact hsuf1⟩
        rw [hsw]
        rcases ht1 with rfl | rfl
        · rw [hs1]
          exact getItem_insert_self _ _ _
        · rw [hs1, cleanup_fresh_head _ (by positivity) _ _ _ _ _ _]
          simp [getItem]
      · rw [hsave1, herr1] at hok1
        exact absurd hok1 (by simp [isOkE])

/-- Counterexample to C9 as stated: (i) with the browser storage at capacity
(model capacity 10 bytes) both writes throw, and the double save leaves no
record under the room's key — not exactly one; (ii) with ample capacity but
a 5.4MB non-room entry (which no cleanup ever touches) already present, the
double save leaves total usage above the 5MB STORAGE_MAX_BYTES budget. -/
theorem c9_counterexample :
    getItem (saveTwice c9envA "r" [msgText] []) (getStorageKey "r") = none ∧
    getStorageUsage (saveTwice c9envB "r" [msgText] c9storeB) >
      c9envB.cfg.STORAGE_MAX_BYTES := by
  constructor
  · decide
  · have hbLen : bigRaw.length = 2700000 := by
      rw [show bigRaw.length = (List.replicate 2700000 'a').length from rfl,
        List.length_replicate]
    have he0 : ("lanchat_username", StoredValue.corrupt bigRaw) ∈ c9storeB := by
      simp [c9storeB]
    have h1 : ("lanchat_username", StoredValue.corrupt bigRaw) ∈
        afterStore (saveRoomMessages c9envB "r" [msgText] c9storeB) :=
      save_keeps_nonroom c9envB "r" [msgText] c9storeB _ he0 (by decide) (by decide)
    have h2 : ("lanchat_username", StoredValue.corrupt bigRaw) ∈
        saveTwice c9envB "r" [msgText] c9storeB := by
      unfold saveTwice
      exact save_keeps_nonroom c9envB "r" [msgText] _ _ h1 (by decide) (by decide)
    have h3 := usage_ge_of_mem _ _ _ h2
    have h4 : 2 * encLenValue (StoredValue.corrupt bigRaw) = 5400000 := by
      rw [show encLenValue (StoredValue.corrupt bigRaw) = bigRaw.length from rfl,
        hbLen]
    have h5 : c9envB.cfg.STORAGE_MAX_BYTES = 5242880 := rfl
    have h6 : c9envB.cfg.STORAGE_MAX_BYTES <
        2 * encLenValue (StoredValue.corrupt bigRaw) := by
      rw [h5, h4]
      norm_num
    exact lt_of_lt_of_le h6 h3

/-- Witness for the amended C9 at a concrete double save into an empty
store. -/
theorem c9_double_save_amended_witness :
    (([] : Store).map Prod.fst).Nodup ∧
    (((saveTwice envBig "q" [msgText] []).map Prod.fst).Nodup ∧
    getStorageUsage (saveTwice envBig "q" [msgText] []) ≤
      max (getStorageUsage []) envBig.quota ∧
    ((isOkE (saveRoomMessages envBig "q" [msgText] []) = true ∨
      isOkE (saveRoomMessages envBig "q" [msgText]
        (afterStore (saveRoomMessages envBig "q" [msgText] []))) = true) →
      ∃ msgs,
        getItem (saveTwice envBig "q" [msgText] []) (getStorageKey "q") =
          some (StoredValue.record
            { version := some STORAGE_VERSION, roomId := "q",
              messages := some msgs, timestamp := some envBig.now }) ∧
        msgs.IsSuffix (persistableSubset [msgText]))) :=
  ⟨by decide, c9_double_save_amended envBig "q" [msgText] [] (by decide)⟩

/-! ## Claim C6 -/

/-- C6: when the room socket closes with code 1008 or 1009 and no manual
room switch is in flight, the close handler emits the matching
ws_closed_1008 / ws_closed_1009 error event to the error handler, schedules
no room reconnect (no reconnecting notification, room timer untouched), and
opens no socket — so no automatic reconnect ever arises from that close. -/
theorem c6_terminal_close_no_reconnect (u : String) (s : TState) (k : Sock)
    (c : Nat) (hws : s.roomWs = some k) (hman : s.roomManualClose = false)
    (hc : c = 1008 ∨ c = 1009) :
    Out.errorEvt (if c = 1008 then "ws_closed_1008" else "ws_closed_1009") ∈
      (step u s (TEvent.roomClose (some c))).2 ∧
    (∀ d, Out.connectionEvt Scope.room "reconnecting" d ∉
      (step u s (TEvent.roomClose (some c))).2) ∧
    (∀ scp rid, Out.newSocket scp rid ∉ (step u s (TEvent.roomClose (some c))).2) ∧
    (step u s (TEvent.roomClose (some c))).1.roomTimer = s.roomTimer := by
  have hchain : (step u s (TEvent.roomClose (some c))) =
      ({ s with roomWs := none, roomManualClose := false },
        Out.closedEvt :: closeCodeOuts (some c)) := by
    simp only [step, onRoomClose, hws, hman]
    rcases hc with rfl | rfl <;> simp
  rw [hchain]
  rcases hc with rfl | rfl <;> simp [closeCodeOuts]

/-- Witness for C6 at a concrete open-room state and close code 1008. -/
theorem c6_terminal_close_no_reconnect_witness :
    c6state.roomWs = some ⟨"a", SockSt.opened⟩ ∧
    c6state.roomManualClose = false ∧
    ((1008 : Nat) = 1008 ∨ (1008 : Nat) = 1009) ∧
    (Out.errorEvt (if (1008 : Nat) = 1008 then "ws_closed_1008" else "ws_closed_1009") ∈
      (step "u" c6state (TEvent.roomClose (some 1008))).2 ∧
    (∀ d, Out.connectionEvt Scope.room "reconnecting" d ∉
      (step "u" c6state (TEvent.roomClose (some 1008))).2) ∧
    (∀ scp rid, Out.newSocket scp rid ∉
      (step "u" c6state (TEvent.roomClose (some 1008))).2) ∧
    (step "u" c6state (TEvent.roomClose (some 1008))).1.roomTimer =
      c6state.roomTimer) :=
  ⟨rfl, rfl, Or.inl rfl,
    c6_terminal_close_no_reconnect "u" c6state ⟨"a", SockSt.opened⟩ 1008
      rfl rfl (Or.inl rfl)⟩

/-! ## Claim C7 -/

/-- C7: room connection attempts are gated on the display name. A
connectRoom call with an empty username does nothing; a fired room reconnect
timer with an empty username clears the timer and doubles the delay but
opens no socket; and whenever the room socket reaches the open state, the
open handler either immediately sends the {username} handshake (username
present — the handshake is the first action) or immediately closes the
socket (username absent). -/
theorem c7_username_gating :
    (∀ (s : TState) (rid : String), step "" s (TEvent.connectRoom rid) = (s, [])) ∧
    (∀ s : TState, (step "" s TEvent.roomTimerFire).2 = [] ∧
      (step "" s TEvent.roomTimerFire).1.roomWs = s.roomWs) ∧
    (∀ (u : String) (s : TState) (k : Sock), s.roomWs = some k →
      k.st = SockSt.connecting → u ≠ "" →
      (step u s TEvent.roomOpen).2 =
        [Out.handshake u, Out.openedEvt k.rid,
          Out.connectionEvt Scope.room "connected" none] ∧
      (step u s TEvent.roomOpen).1.roomWs = some ⟨k.rid, SockSt.opened⟩) ∧
    (∀ (s : TState) (k : Sock), s.roomWs = some k →
      k.st = SockSt.connecting →
      (step "" s TEvent.roomOpen).2 = [Out.wsCloseCall Scope.room] ∧
      (step "" s TEvent.roomOpen).1.roomWs = some ⟨k.rid, SockSt.closing⟩) := by
  refine ⟨?_, ?_, ?_, ?_⟩
  · intro s rid
    simp [step, connectRoom]
  · intro s
    cases ht : s.roomTimer with
    | none => simp [step, onRoomTimerFire, ht]
    | some p => simp [step, onRoomTimerFire, ht]
  · intro u s k hws hst hu
    simp [step, onRoomOpen, hws, hst, hu]
  · intro s k hws hst
    simp [step, onRoomOpen, hws, hst]

/-- Witness for C7 at a connecting room socket and both username states. -/
theorem c7_username_gating_witness :
    step "" c7state (TEvent.connectRoom "b") = (c7state, []) ∧
    (step "u" c7state TEvent.roomOpen).2 =
      [Out.handshake "u", Out.openedEvt "a",
        Out.connectionEvt Scope.room "connected" none] ∧
    (step "" c7state TEvent.roomOpen).2 = [Out.wsCloseCall Scope.room] :=
  ⟨(c7_username_gating.1 c7state "b"),
    ((c7_username_gating.2.2.1 "u" c7state ⟨"a", SockSt.connecting⟩ rfl rfl
      (by decide)).1),
    ((c7_username_gating.2.2.2 c7state ⟨"a", SockSt.connecting⟩ rfl rfl).1)⟩

/-! ## Claim C8 -/

/-- The 1008/1009 error events are the only outputs of closeCodeOuts. -/
theorem connectionEvt_not_mem_closeCodeOuts (c : Option Nat) (scp : Scope)
    (st : String) (d : Option Nat) :
    Out.connectionEvt scp st d ∉ closeCodeOuts c := by
  simp only [closeCodeOuts]
  split
  · simp
  · split <;> simp

/-- C8: connectRoom(id2) while the room socket is open to a different id1
closes the socket manually (the only action) and records id2; when that
close completes — whatever the close code and the username at that moment —
the transport immediately re-opens a socket against id2, clears any pending
room reconnect timer, schedules no delayed backoff retry (no reconnecting
notification), and emits the roomSwitch notification before the new socket
is created. -/
theorem c8_manual_room_switch (u u2 : String) (s : TState) (id1 id2 : String)
    (code : Option Nat) (hu : u ≠ "")
    (hws : s.roomWs = some ⟨id1, SockSt.opened⟩)
    (hne : s.currentRoom ≠ id2) (hid2 : id2 ≠ "") :
    (step u s (TEvent.connectRoom id2)).2 = [Out.wsCloseCall Scope.room] ∧
    (step u s (TEvent.connectRoom id2)).1.currentRoom = id2 ∧
    (step u s (TEvent.connectRoom id2)).1.roomManualClose = true ∧
    (step u s (TEvent.connectRoom id2)).1.roomWs = some ⟨id1, SockSt.closing⟩ ∧
    ((step u2 (step u s (TEvent.connectRoom id2)).1
        (TEvent.roomClose code)).1.roomWs = some ⟨id2, SockSt.connecting⟩ ∧
      (step u2 (step u s (TEvent.connectRoom id2)).1
        (TEvent.roomClose code)).1.roomTimer = none ∧
      (step u2 (step u s (TEvent.connectRoom id2)).1
        (TEvent.roomClose code)).1.roomManualClose = false ∧
      (∀ d, Out.connectionEvt Scope.room "reconnecting" d ∉
        (step u2 (step u s (TEvent.connectRoom id2)).1
          (TEvent.roomClose code)).2) ∧
      (∃ pre, (step u2 (step u s (TEvent.connectRoom id2)).1
          (TEvent.roomClose code)).2 =
        pre ++ [Out.roomSwitch id2, Out.newSocket Scope.room id2])) := by
  have h1 : step u s (TEvent.connectRoom id2) =
      ({ s with roomManualClose := true,
                roomWs := some ⟨id1, SockSt.closing⟩,
                currentRoom := id2 }, [Out.wsCloseCall Scope.room]) := by
    simp [step, connectRoom, wsOpenRoom, hws, hu, hne]
  have h2 : step u2
      ({ s with roomManualClose := true,
                roomWs := some ⟨id1, SockSt.closing⟩,
                currentRoom := id2 } : TState) (TEvent.roomClose code) =
      ({ s with roomManualClose := false, roomWs := some ⟨id2, SockSt.connecting⟩,
                currentRoom := id2, roomTimer := none },
        Out.closedEvt :: (closeCodeOuts code ++
          [Out.roomSwitch id2, Out.newSocket Scope.room id2])) := by
    simp [step, onRoomClose, openRoomSocket, clearRoomTimer, hid2]
  rw [h1]
  refine ⟨rfl, rfl, rfl, rfl, ?_⟩
  rw [h2]
  refine ⟨rfl, rfl, rfl, ?_, ?_⟩
  · intro d hmem
    simp only [List.mem_cons, List.mem_append] at hmem
    rcases hmem with h | h | h
    · exact absurd h (by simp)
    · exact connectionEvt_not_mem_closeCodeOuts code Scope.room "reconnecting" d h
    · simp at h
  · exact ⟨Out.closedEvt :: closeCodeOuts code, by simp⟩

/-- Witness for C8 at a concrete switch from room a to room b with close
code 1000 and the username cleared before the close completes. -/
theorem c8_manual_room_switch_witness :
    ("u" : String) ≠ "" ∧
    c6state.roomWs = some ⟨"a", SockSt.opened⟩ ∧
    c6state.currentRoom ≠ "b" ∧ ("b" : String) ≠ "" ∧
    ((step "u" c6state (TEvent.connectRoom "b")).2 =
      [Out.wsCloseCall Scope.room] ∧
    (step "u" c6state (TEvent.connectRoom "b")).1.currentRoom = "b" ∧
    (step "u" c6state (TEvent.connectRoom "b")).1.roomManualClose = true ∧
    (step "u" c6state (TEvent.connectRoom "b")).1.roomWs =
      some ⟨"a", SockSt.closing⟩ ∧
    ((step "" (step "u" c6state (TEvent.connectRoom "b")).1
        (TEvent.roomClose (some 1000))).1.roomWs =
          some ⟨"b", SockSt.connecting⟩ ∧
      (step "" (step "u" c6state (TEvent.connectRoom "b")).1
        (TEvent.roomClose (some 1000))).1.roomTimer = none ∧
      (step "" (step "u" c6state (TEvent.connectRoom "b")).1
        (TEvent.roomClose (some 1000))).1.roomManualClose = false ∧
      (∀ d, Out.connectionEvt Scope.room "reconnecting" d ∉
        (step "" (step "u" c6state (TEvent.connectRoom "b")).1
          (TEvent.roomClose (some 1000))).2) ∧
      (∃ pre, (step "" (step "u" c6state (TEvent.connectRoom "b")).1
          (TEvent.roomClose (some 1000))).2 =
        pre ++ [Out.roomSwitch "b", Out.newSocket Scope.room "b"]))) :=
  ⟨by decide, rfl, by decide, by decide,
    c8_manual_room_switch "u" "" c6state "a" "b" (some 1000)
      (by decide) rfl (by decide) (by decide)⟩

/-! ## Claim C3 -/

theorem filterMap_closeCodeOuts_room (c : Option Nat) :
    (closeCodeOuts c).filterMap roomDelayEvt = [] := by
  simp only [closeCodeOuts]
  split
  · simp [roomDelayEvt]
  · split <;> simp [roomDelayEvt]

theorem filterMap_closeCodeOuts_lobby (c : Option Nat) :
    (closeCodeOuts c).filterMap lobbyDelayEvt = [] := by
  simp only [closeCodeOuts]
  split
  · simp [lobbyDelayEvt]
  · split <;> simp [lobbyDelayEvt]

/-- One transport step under a nonempty username and a consistent state,
restricted to the automatic events, preserves consistency and refines the
delay law of both scopes. -/
theorem step_delay_ok (u : String) (s : TState) (e : TEvent) (hu : u ≠ "")
    (hs : TInv s) (he : noManualEvt e = true) :
    TInv (step u s e).1 ∧
    (∀ tr, delayLawB (specRoom (step u s e).1) tr = true →
      delayLawB (specRoom s) (((step u s e).2.filterMap roomDelayEvt) ++ tr) = true) ∧
    (∀ tr, delayLawB (specLobby (step u s e).1) tr = true →
      delayLawB (specLobby s)
        (((step u s e).2.filterMap lobbyDelayEvt) ++ tr) = true) := by
  obtain ⟨hrt, hrw, hlt, hlw, hman, hb1, hb2, hb3, hb4⟩ := hs
  cases e with
  | connectRoom rid => simp [noManualEvt] at he
  | connectLobby => simp [noManualEvt] at he
  | roomOpen =>
    cases hws : s.roomWs with
    | none =>
      simp only [step, onRoomOpen, hws]
      exact ⟨⟨hrt, hrw, hlt, hlw, hman, hb1, hb2, hb3, hb4⟩,
        fun tr h => by simpa using h, fun tr h => by simpa using h⟩
    | some k =>
      have htn : s.roomTimer = none := by
        rcases hrw with h | h
        · exact h
        · rw [h] at hws
          exact absurd hws (by simp)
      by_cases hst : k.st = SockSt.connecting
      · have hstep : step u s TEvent.roomOpen =
            ({ s with roomRetry := RETRY_BASE_MS,
                      roomWs := some ⟨k.rid, SockSt.opened⟩ },
              [Out.handshake u, Out.openedEvt k.rid,
                Out.connectionEvt Scope.room "connected" none]) := by
          simp [step, onRoomOpen, hws, hst, hu]
        rw [hstep]
        dsimp only
        refine ⟨⟨?_, ?_, hlt, hlw, hman,
          (show RETRY_BASE_MS ≤ RETRY_BASE_MS by decide),
          (show RETRY_BASE_MS ≤ RETRY_MAX_MS by decide), hb3, hb4⟩, ?_, ?_⟩
        · intro rid r h
          rw [htn] at h
          exact absurd h (by simp)
        · exact Or.inl htn
        · intro tr h
          simp only [List.filterMap_cons, roomDelayEvt, List.filterMap_nil,
            List.nil_append, List.cons_append]
          simp only [specRoom, htn] at h ⊢
          simpa [delayLawB] using h
        · intro tr h
          simp only [List.filterMap_cons, lobbyDelayEvt, List.filterMap_nil,
            List.nil_append]
          simpa [specLobby] using h
      · have hstep : step u s TEvent.roomOpen = (s, []) := by
          simp [step, onRoomOpen, hws, hst]
        rw [hstep]
        exact ⟨⟨hrt, hrw, hlt, hlw, hman, hb1, hb2, hb3, hb4⟩,
          fun tr h => by simpa using h, fun tr h => by simpa using h⟩
  | roomClose c =>
    cases hws : s.roomWs with
    | none =>
      have hstep : step u s (TEvent.roomClose c) = (s, []) := by
        simp [step, onRoomClose, hws]
      rw [hstep]
      exact ⟨⟨hrt, hrw, hlt, hlw, hman, hb1, hb2, hb3, hb4⟩,
        fun tr h => by simpa using h, fun tr h => by simpa using h⟩
    | some k =>
      have htn : s.roomTimer = none := by
        rcases hrw with h | h
        · exact h
        · rw [h] at hws
          exact absurd hws (by simp)
      by_cases hretry : (c ≠ some 1008 ∧ c ≠ some 1009) ∧ s.currentRoom ≠ ""
      · have hstep : step u s (TEvent.roomClose c) =
            ({ s with roomWs := none, roomManualClose := false,
                      roomTimer := some (s.currentRoom, s.roomRetry) },
              Out.closedEvt :: (closeCodeOuts c ++
                [Out.connectionEvt Scope.room "reconnecting" (some s.roomRetry)])) := by
          simp [step, onRoomClose, hws, hman, hretry.1.1, hretry.1.2, hretry.2,
            scheduleReconnectRoom, htn, wsOpenRoom]
        rw [hstep]
        dsimp only
        refine ⟨⟨?_, Or.inr rfl, hlt, hlw, rfl, hb1, hb2, hb3, hb4⟩, ?_, ?_⟩
        · intro rid r h
          rw [Option.some_inj] at h
          exact (congrArg Prod.snd h).symm
        · intro tr h
          simp only [List.filterMap_cons, List.filterMap_append, roomDelayEvt,
            filterMap_closeCodeOuts_room, List.filterMap_nil, List.nil_append,
            List.append_nil, List.cons_append]
          simp only [specRoom, htn] at h ⊢
          simp only [delayLawB, beq_self_eq_true, Bool.true_and]
          exact h
        · intro tr h
          simp only [List.filterMap_cons, List.filterMap_append, lobbyDelayEvt,
            filterMap_closeCodeOuts_lobby, List.filterMap_nil, List.nil_append,
            List.append_nil]
          simpa [specLobby] using h
      · have hstep : step u s (TEvent.roomClose c) =
            ({ s with roomWs := none, roomManualClose := false },
              Out.closedEvt :: closeCodeOuts c) := by
          simp only [step, onRoomClose, hws, hman]
          rw [if_neg (by simp), if_neg (by
            intro hcon
            exact hretry ⟨⟨hcon.1.2.1, hcon.1.2.2⟩, hcon.2⟩)]
        rw [hstep]
        dsimp only
        refine ⟨⟨?_, Or.inl htn, hlt, hlw, rfl, hb1, hb2, hb3, hb4⟩, ?_, ?_⟩
        · intro rid r h
          exact hrt rid r h
        · intro tr h
          simp only [List.filterMap_cons, roomDelayEvt,
            filterMap_closeCodeOuts_room, List.nil_append]
          simpa [specRoom, htn] using h
        · intro tr h
          simp only [List.filterMap_cons, lobbyDelayEvt,
            filterMap_closeCodeOuts_lobby, List.nil_append]
          simpa [specLobby] using h
  | roomTimerFire =>
    cases ht : s.roomTimer with
    | none =>
      have hstep : step u s TEvent.roomTimerFire = (s, []) := by
        simp [step, onRoomTimerFire, ht]
      rw [hstep]
      exact ⟨⟨hrt, hrw, hlt, hlw, hman, hb1, hb2, hb3, hb4⟩,
        fun tr h => by simpa using h, fun tr h => by simpa using h⟩
    | some p =>
      obtain ⟨rid, r⟩ := p
      have hr : r = s.roomRetry := hrt rid r ht
      have hstep : step u s TEvent.roomTimerFire =
          ({ s with roomTimer := none,
                    roomRetry := min (r * 2) RETRY_MAX_MS,
                    roomWs := some ⟨rid, SockSt.connecting⟩ },
            [Out.newSocket Scope.room rid]) := by
        simp [step, onRoomTimerFire, ht, hu, openRoomSocket]
      rw [hstep]
      dsimp only
      refine ⟨⟨?_, Or.inl rfl, hlt, hlw, hman, ?_, ?_, hb3, hb4⟩, ?_, ?_⟩
      · intro rid2 r2 h
        exact absurd h (by simp)
      · have h1000 : (1000 : Nat) ≤ s.roomRetry := hb1
        have hgoal : (1000 : Nat) ≤ min (r * 2) 8000 := by
          rw [hr]
          exact Nat.le_min.mpr ⟨by omega, by omega⟩
        exact hgoal
      · exact Nat.min_le_right _ _
      · intro tr h
        simp only [List.filterMap_cons, roomDelayEvt, List.filterMap_nil,
          List.nil_append]
        simp only [specRoom, ht] at h ⊢
        exact h
      · intro tr h
        simp only [List.filterMap_cons, lobbyDelayEvt, List.filterMap_nil,
          List.nil_append]
        simpa [specLobby] using h
  | lobbyOpen =>
    cases hws : s.lobbyWs with
    | none =>
      have hstep : step u s TEvent.lobbyOpen = (s, []) := by
        simp [step, onLobbyOpen, hws]
      rw [hstep]
      exact ⟨⟨hrt, hrw, hlt, hlw, hman, hb1, hb2, hb3, hb4⟩,
        fun tr h => by simpa using h, fun tr h => by simpa using h⟩
    | some st =>
      have hltn : s.lobbyTimer = none := by
        rcases hlw with h | h
        · exact h
        · rw [h] at hws
          exact absurd hws (by simp)
      cases st with
      | connecting =>
        have hstep : step u s TEvent.lobbyOpen =
            ({ s with lobbyWs := some SockSt.opened,
                      lobbyRetry := RETRY_BASE_MS },
              [Out.connectionEvt Scope.lobby "connected" none]) := by
          simp [step, onLobbyOpen, hws]
        rw [hstep]
        dsimp only
        refine ⟨⟨hrt, hrw, ?_, Or.inl hltn, hman, hb1, hb2,
          (show RETRY_BASE_MS ≤ RETRY_BASE_MS by decide),
          (show RETRY_BASE_MS ≤ RETRY_MAX_MS by decide)⟩,
          ?_, ?_⟩
        · intro r h
          rw [hltn] at h
          exact absurd h (by simp)
        · intro tr h
          simp only [List.filterMap_cons, roomDelayEvt, List.filterMap_nil,
            List.nil_append]
          simpa [specRoom] using h
        · intro tr h
          simp only [List.filterMap_cons, lobbyDelayEvt, List.filterMap_nil,
            List.nil_append, List.cons_append]
          simp only [specLobby, hltn] at h ⊢
          simpa [delayLawB] using h
      | opened =>
        have hstep : step u s TEvent.lobbyOpen = (s, []) := by
          simp [step, onLobbyOpen, hws]
        rw [hstep]
        exact ⟨⟨hrt, hrw, hlt, hlw, hman, hb1, hb2, hb3, hb4⟩,
          fun tr h => by simpa using h, fun tr h => by simpa using h⟩
      | closing =>
        have hstep : step u s TEvent.lobbyOpen = (s, []) := by
          simp [step, onLobbyOpen, hws]
        rw [hstep]
        exact ⟨⟨hrt, hrw, hlt, hlw, hman, hb1, hb2, hb3, hb4⟩,
          fun tr h => by simpa using h, fun tr h => by simpa using h⟩
  | lobbyClose =>
    cases hws : s.lobbyWs with
    | none =>
      have hstep : step u s TEvent.lobbyClose = (s, []) := by
        simp [step, onLobbyClose, hws]
      rw [hstep]
      exact ⟨⟨hrt, hrw, hlt, hlw, hman, hb1, hb2, hb3, hb4⟩,
        fun tr h => by simpa using h, fun tr h => by simpa using h⟩
    | some st =>
      have hltn : s.lobbyTimer = none := by
        rcases hlw with h | h
        · exact h
        · rw [h] at hws
          exact absurd hws (by simp)
      have hstep : step u s TEvent.lobbyClose =
          ({ s with lobbyWs := none,
                    lobbyTimer := some s.lobbyRetry },
            [Out.connectionEvt Scope.lobby "reconnecting" (some s.lobbyRetry)]) := by
        simp [step, onLobbyClose, hws, scheduleReconnectLobby, hltn, wsOpenLobby]
      rw [hstep]
      dsimp only
      refine ⟨⟨hrt, ?_, ?_, Or.inr rfl, hman, hb1, hb2, hb3, hb4⟩, ?_, ?_⟩
      · rcases hrw with h | h
        · exact Or.inl h
        · exact Or.inr h
      · intro r h
        exact (Option.some_inj.mp h).symm
      · intro tr h
        simp only [List.filterMap_cons, roomDelayEvt, List.filterMap_nil,
          List.nil_append]
        simpa [specRoom] using h
      · intro tr h
        simp only [List.filterMap_cons, lobbyDelayEvt, List.filterMap_nil,
          List.nil_append, List.cons_append]
        simp only [specLobby, hltn] at h ⊢
        simp only [delayLawB, beq_self_eq_true, Bool.true_and]
        exact h
  | lobbyTimerFire =>
    cases ht : s.lobbyTimer with
    | none =>
      have hstep : step u s TEvent.lobbyTimerFire = (s, []) := by
        simp [step, onLobbyTimerFire, ht]
      rw [hstep]
      exact ⟨⟨hrt, hrw, hlt, hlw, hman, hb1, hb2, hb3, hb4⟩,
        fun tr h => by simpa using h, fun tr h => by simpa using h⟩
    | some r =>
      have hr : r = s.lobbyRetry := hlt r ht
      have hstep : step u s TEvent.lobbyTimerFire =
          ({ s with lobbyTimer := none,
                    lobbyRetry := min (r * 2) RETRY_MAX_MS,
                    lobbyWs := some SockSt.connecting },
            [Out.newSocket Scope.lobby ""]) := by
        simp [step, onLobbyTimerFire, ht, openLobbySocket]
      rw [hstep]
      dsimp only
      refine ⟨⟨hrt, ?_, ?_, Or.inl rfl, hman, hb1, hb2, ?_, ?_⟩, ?_, ?_⟩
      · rcases hrw with h | h
        · exact Or.inl h
        · exact Or.inr h
      · intro r2 h
        exact absurd h (by simp)
      · have h1000 : (1000 : Nat) ≤ s.lobbyRetry := hb3
        have hgoal : (1000 : Nat) ≤ min (r * 2) 8000 := by
          rw [hr]
          exact Nat.le_min.mpr ⟨by omega, by omega⟩
        exact hgoal
      · exact Nat.min_le_right _ _
      · intro tr h
        simp only [List.filterMap_cons, roomDelayEvt, List.filterMap_nil,
          List.nil_append]
        simpa [specRoom] using h
      · intro tr h
        simp only [List.filterMap_cons, lobbyDelayEvt, List.filterMap_nil,
          List.nil_append]
        simp only [specLobby, ht] at h ⊢
        exact h

/-- Running any sequence of automatic events with a username present keeps
the state consistent and satisfies the delay law of both scopes from the
spec automaton's current expected delays. -/
theorem run_delay_ok (u : String) (es : List TEvent) : ∀ s : TState, u ≠ "" →
    TInv s → (∀ e ∈ es, noManualEvt e = true) →
    TInv (run u s es).1 ∧
    delayLawB (specRoom s) ((run u s es).2.filterMap roomDelayEvt) = true ∧
    delayLawB (specLobby s) ((run u s es).2.filterMap lobbyDelayEvt) = true := by
  induction es with
  | nil =>
    intro s hu hs hall
    exact ⟨hs, rfl, rfl⟩
  | cons e rest ih =>
    intro s hu hs hall
    have hne : noManualEvt e = true := hall e (List.mem_cons_self e rest)
    have hrest : ∀ x ∈ rest, noManualEvt x = true :=
      fun x hx => hall x (List.mem_cons_of_mem e hx)
    obtain ⟨hi, hr, hl⟩ := step_delay_ok u s e hu hs hne
    obtain ⟨hi2, hr2, hl2⟩ := ih (step u s e).1 hu hi hrest
    refine ⟨?_, ?_, ?_⟩
    · simpa [run] using hi2
    · have h := hr _ hr2
      simpa [run, List.filterMap_append] using h
    · have h := hl _ hl2
      simpa [run, List.filterMap_append] using h

/-- Every delay scheduled under the delay law from an in-range expected
delay lies in [RETRY_BASE_MS, RETRY_MAX_MS]. -/
theorem delayLawB_bounds : ∀ (tr : List DEvt) (r : Nat),
    delayLawB r tr = true → RETRY_BASE_MS ≤ r → r ≤ RETRY_MAX_MS →
    ∀ d, DEvt.sched d ∈ tr → RETRY_BASE_MS ≤ d ∧ d ≤ RETRY_MAX_MS := by
  intro tr
  induction tr with
  | nil =>
    intro r _ _ _ d hd
    exact absurd hd (by simp)
  | cons e rest ih =>
    intro r hlaw h1 h2 d hd
    cases e with
    | sched d2 =>
      simp only [delayLawB, Bool.and_eq_true, beq_iff_eq] at hlaw
      obtain ⟨hdr, hlaw2⟩ := hlaw
      subst hdr
      rcases List.mem_cons.mp hd with heq | hmem
      · have hdd : d = d2 := by
          injection heq
        subst hdd
        exact ⟨h1, h2⟩
      · refine ih (min (d2 * 2) RETRY_MAX_MS) hlaw2 ?_ (Nat.min_le_right _ _) d hmem
        have h1000 : (1000 : Nat) ≤ d2 := h1
        exact Nat.le_min.mpr ⟨by omega, by omega⟩
    | reset =>
      simp only [delayLawB] at hlaw
      rcases List.mem_cons.mp hd with heq | hmem
      · exact absurd heq (by simp)
      · exact ih RETRY_BASE_MS hlaw (by decide) (by decide) d hmem

/-- Under the delay law with no successful open in the trace, the scheduled
delays are non-decreasing, and the first one equals the expected delay. -/
theorem delayLawB_chain : ∀ (tr : List DEvt) (r : Nat),
    delayLawB r tr = true → r ≤ RETRY_MAX_MS → DEvt.reset ∉ tr →
    List.Chain' (· ≤ ·) (scheds tr) ∧
      (∀ d, (scheds tr).head? = some d → d = r) := by
  intro tr
  induction tr with
  | nil =>
    intro r _ _ _
    exact ⟨List.chain'_nil, fun d hd => absurd hd (by simp [scheds])⟩
  | cons e rest ih =>
    intro r hlaw hr hnr
    cases e with
    | reset => exact absurd (List.mem_cons_self _ _) hnr
    | sched d2 =>
      simp only [delayLawB, Bool.and_eq_true, beq_iff_eq] at hlaw
      obtain ⟨hdr, hlaw2⟩ := hlaw
      subst hdr
      have hnr2 : DEvt.reset ∉ rest := fun h => hnr (List.mem_cons_of_mem _ h)
      obtain ⟨hch, hhd⟩ := ih (min (d2 * 2) RETRY_MAX_MS) hlaw2
        (Nat.min_le_right _ _) hnr2
      have hsch : scheds (DEvt.sched d2 :: rest) = d2 :: scheds rest := by
        simp [scheds]
      rw [hsch]
      constructor
      · rw [List.chain'_cons']
        refine ⟨?_, hch⟩
        intro y hy
        rw [hhd y hy]
        have h8000 : d2 ≤ 8000 := hr
        exact Nat.le_min.mpr ⟨by omega, by omega⟩
      · intro d hd
        simp only [List.head?_cons, Option.some_inj] at hd
        exact hd.symm

/-- The expected delays of a consistent state are within range. -/
theorem spec_bounds (s : TState) (hs : TInv s) :
    (RETRY_BASE_MS ≤ specRoom s ∧ specRoom s ≤ RETRY_MAX_MS) ∧
    (RETRY_BASE_MS ≤ specLobby s ∧ specLobby s ≤ RETRY_MAX_MS) := by
  obtain ⟨hrt, _, hlt, _, _, hb1, hb2, hb3, hb4⟩ := hs
  constructor
  · cases ht : s.roomTimer with
    | none => exact ⟨by simpa [specRoom, ht] using hb1, by simpa [specRoom, ht] using hb2⟩
    | some p =>
      obtain ⟨rid, r⟩ := p
      have hr : r = s.roomRetry := hrt rid r ht
      have h1000 : (1000 : Nat) ≤ s.roomRetry := hb1
      simp only [specRoom, ht]
      refine ⟨Nat.le_min.mpr ⟨by omega, by omega⟩, Nat.min_le_right _ _⟩
  · cases ht : s.lobbyTimer with
    | none => exact ⟨by simpa [specLobby, ht] using hb3, by simpa [specLobby, ht] using hb4⟩
    | some r =>
      have hr : r = s.lobbyRetry := hlt r ht
      have h1000 : (1000 : Nat) ≤ s.lobbyRetry := hb3
      simp only [specLobby, ht]
      refine ⟨Nat.le_min.mpr ⟨by omega, by omega⟩, Nat.min_le_right _ _⟩

/-- C3: for each scope independently, over any run of automatic
failure/retry events (socket opens, closes, timer firings — no manual
connect calls) from a consistent state with a username present, the
delay-relevant trace obeys the law d0 = expected delay,
d_next = min(2 * d, 8000 ms), with every successful open resetting the
expected delay to 1000 ms; hence every scheduled delay lies in
[1000 ms, 8000 ms], and between successful opens the scheduled delays are
non-decreasing. In the constructor's initial state both expected delays are
1000 ms, so the first scheduled delay of each scope is 1000 ms. -/
theorem c3_reconnect_backoff (u : String) (s : TState) (es : List TEvent)
    (hu : u ≠ "") (hs : TInv s) (hes : ∀ e ∈ es, noManualEvt e = true) :
    delayLawB (specRoom s) (roomTrace u s es) = true ∧
    delayLawB (specLobby s) (lobbyTrace u s es) = true ∧
    (∀ d, DEvt.sched d ∈ roomTrace u s es →
      RETRY_BASE_MS ≤ d ∧ d ≤ RETRY_MAX_MS) ∧
    (∀ d, DEvt.sched d ∈ lobbyTrace u s es →
      RETRY_BASE_MS ≤ d ∧ d ≤ RETRY_MAX_MS) ∧
    (DEvt.reset ∉ roomTrace u s es →
      List.Chain' (· ≤ ·) (scheds (roomTrace u s es))) ∧
    (DEvt.reset ∉ lobbyTrace u s es →
      List.Chain' (· ≤ ·) (scheds (lobbyTrace u s es))) ∧
    specRoom initTState = RETRY_BASE_MS ∧
    specLobby initTState = RETRY_BASE_MS := by
  obtain ⟨_, hr, hl⟩ := run_delay_ok u es s hu hs hes
  obtain ⟨⟨hrb1, hrb2⟩, ⟨hlb1, hlb2⟩⟩ := spec_bounds s hs
  refine ⟨hr, hl, ?_, ?_, ?_, ?_, rfl, rfl⟩
  · exact delayLawB_bounds _ _ hr hrb1 hrb2
  · exact delayLawB_bounds _ _ hl hlb1 hlb2
  · exact fun hnr => (delayLawB_chain _ _ hr hrb2 hnr).1
  · exact fun hnr => (delayLawB_chain _ _ hl hlb2 hnr).1

/-- Witness for C3: a concrete run of three room failures and two lobby
failures from a state with both sockets open schedules the delays
1000, 2000, 4000 (room) and 1000, 2000 (lobby). -/
theorem c3_reconnect_backoff_witness :
    ("u" : String) ≠ "" ∧ (∀ e ∈ c3events, noManualEvt e = true) ∧
    (delayLawB (specRoom c3state) (roomTrace "u" c3state c3events) = true ∧
    delayLawB (specLobby c3state) (lobbyTrace "u" c3state c3events) = true ∧
    (∀ d, DEvt.sched d ∈ roomTrace "u" c3state c3events →
      RETRY_BASE_MS ≤ d ∧ d ≤ RETRY_MAX_MS) ∧
    (∀ d, DEvt.sched d ∈ lobbyTrace "u" c3state c3events →
      RETRY_BASE_MS ≤ d ∧ d ≤ RETRY_MAX_MS) ∧
    (DEvt.reset ∉ roomTrace "u" c3state c3events →
      List.Chain' (· ≤ ·) (scheds (roomTrace "u" c3state c3events))) ∧
    (DEvt.reset ∉ lobbyTrace "u" c3state c3events →
      List.Chain' (· ≤ ·) (scheds (lobbyTrace "u" c3state c3events))) ∧
    specRoom initTState = RETRY_BASE_MS ∧
    specLobby initTState = RETRY_BASE_MS) ∧
    roomTrace "u" c3state c3events =
      [DEvt.sched 1000, DEvt.sched 2000, DEvt.sched 4000] ∧
    lobbyTrace "u" c3state c3events = [DEvt.sched 1000, DEvt.sched 2000] :=
  ⟨by decide, by decide,
    c3_reconnect_backoff "u" c3state c3events (by decide)
      ⟨fun _ _ h => by simp [c3state] at h, Or.inl rfl,
        fun _ h => by simp [c3state] at h, Or.inl rfl, rfl,
        by decide, by decide, by decide, by decide⟩
      (by decide),
    by decide, by decide⟩
